import Mathlib

/-!
Shallow embedding of the rbx_xml property-value codec core:
`src/rbx_xml/src/serializer_core.rs` and `src/rbx_xml/src/types/mod.rs`.

The underlying xml-rs `EventWriter` is modelled as a list of emitted XML
events together with an error plan: a script of outcomes for successive
`write` calls, which lets us reason about error paths of the wrapper.
Machine strings are Lean `String`s; `char::is_whitespace` (the Unicode
White_Space property) is modelled explicitly below.
-/

set_option maxHeartbeats 1000000

/-- The Unicode White_Space property, as implemented by Rust's
`char::is_whitespace`. -/
def isUnicodeWhitespace (c : Char) : Bool :=
  let n := c.toNat
  (0x9 ≤ n && n ≤ 0xD) || n == 0x20 || n == 0x85 || n == 0xA0 || n == 0x1680 ||
    (0x2000 ≤ n && n ≤ 0x200A) || n == 0x2028 || n == 0x2029 || n == 0x202F ||
    n == 0x205F || n == 0x3000

/-- Io error payload of the external `std::io::Error` type (opaque message). -/
structure IoError where
  msg : String
deriving DecidableEq, Repr

/-- The external `xml::writer::Error` type: an `Io` variant wrapping an
`io::Error`, and the remaining (emitter-level) variants collapsed into
`Other` since the core never inspects them individually. -/
inductive WriterError where
  | Io (inner : IoError)
  | Other (details : String)
deriving DecidableEq, Repr

/-- XML events accepted by the writer (`xml::writer::XmlEvent`), restricted to
the events serializer_core emits: element start (with attributes), element
end, escaped character data, and CDATA. -/
inductive XmlWriteEvent where
  | startElement (name : String) (attrs : List (String × String))
  | endElement
  | characters (s : String)
  | cdata (s : String)
deriving DecidableEq, Repr

/-- EncodeError from serializer_core.rs (the `__Nonexhaustive` hidden variant
is unconstructable and omitted). -/
inductive EncodeError where
  | IoError (e : IoError)
  | XmlError (e : WriterError)
  | Message (s : String)
deriving DecidableEq, Repr

/-- The `impl From for EncodeError` conversion in serializer_core.rs:
`Io(inner)` maps to `EncodeError::IoError(inner)`, everything else to
`EncodeError::XmlError(error)`. -/
def EncodeError.fromWriterError : WriterError → EncodeError
  | WriterError.Io inner => EncodeError.IoError inner
  | e => EncodeError.XmlError e

/-- Model of the external xml-rs `EventWriter`: the list of successfully
written events plus an error plan scripting the outcome of each successive
`write` call (`none` entry or exhausted plan = success, `some e` = the
underlying stream fails with `e` and the event is not recorded). -/
structure EventWriter where
  events : List XmlWriteEvent
  errorPlan : List (Option WriterError)
deriving DecidableEq, Repr

/-- One `write` call on the underlying event writer. -/
def EventWriter.write (w : EventWriter) (event : XmlWriteEvent) :
    EventWriter × Option WriterError :=
  match w.errorPlan with
  | [] => (⟨w.events ++ [event], []⟩, none)
  | none :: rest => (⟨w.events ++ [event], rest⟩, none)
  | some e :: rest => (⟨w.events, rest⟩, some e)

/-- The `has_outer_whitespace` decision computed inside
`write_characters_or_cdata`: first and last character via
`value.chars().next()` and `value.chars().next_back()`, then the match on
the option pair exactly as in the source. -/
def has_outer_whitespace (value : String) : Bool :=
  match value.data.head?, value.data.getLast? with
  | some first, some last => isUnicodeWhitespace first || isUnicodeWhitespace last
  | some c, none => isUnicodeWhitespace c
  | none, some c => isUnicodeWhitespace c
  | none, none => false

/-- Free function `write_characters_or_cdata` from serializer_core.rs: emit a
CDATA event when the string has outer whitespace, a characters event
otherwise. -/
def write_characters_or_cdata (writer : EventWriter) (value : String) :
    EventWriter × Option WriterError :=
  if has_outer_whitespace value then writer.write (XmlWriteEvent.cdata value)
  else writer.write (XmlWriteEvent.characters value)

/-- The event `write_characters_or_cdata` chooses for a given string. -/
def charEvent (value : String) : XmlWriteEvent :=
  if has_outer_whitespace value then XmlWriteEvent.cdata value
  else XmlWriteEvent.characters value

/-- `XmlEventWriter` from serializer_core.rs: the wrapped event writer plus
the reusable `character_buffer`. -/
structure XmlEventWriter where
  inner : EventWriter
  character_buffer : String
deriving DecidableEq, Repr

/-- `XmlEventWriter::from_output`: a fresh writer over an empty output with an
empty character buffer (the emitter configuration and output device are not
modelled; the event list is the output). -/
def XmlEventWriter.from_output : XmlEventWriter := ⟨⟨[], []⟩, ""⟩

/-- `XmlEventWriter::write`: forward a single event to the inner writer. -/
def XmlEventWriter.write (w : XmlEventWriter) (event : XmlWriteEvent) :
    XmlEventWriter × Option WriterError :=
  let res := w.inner.write event
  (⟨res.1, w.character_buffer⟩, res.2)

/-- `XmlEventWriter::write_string`: delegate to `write_characters_or_cdata`
on the inner writer. -/
def XmlEventWriter.write_string (w : XmlEventWriter) (value : String) :
    XmlEventWriter × Option WriterError :=
  let res := write_characters_or_cdata w.inner value
  (⟨res.1, w.character_buffer⟩, res.2)

/-- `XmlEventWriter::write_characters`: append the formatted value to the
shared buffer (`write!` appends), write the buffer as characters or CDATA,
and clear the buffer only on the success path — the early return on error
(`?`) skips the `clear()`. The `Display` argument is modelled by its
formatted output string. -/
def XmlEventWriter.write_characters (w : XmlEventWriter) (value : String) :
    XmlEventWriter × Option WriterError :=
  let buf := w.character_buffer ++ value
  let res := write_characters_or_cdata w.inner buf
  match res.2 with
  | some e => (⟨res.1, buf⟩, some e)
  | none => (⟨res.1, ""⟩, none)

/-- `XmlEventWriter::write_characters` for a fallible `Display`
implementation: `write!` into a `String` fails exactly when the `Display`
implementation itself reports `fmt::Error` (the `fmt::Write` instance for
`String` is infallible), and the source calls `.unwrap()` on that result.
`displayed = none` models a `Display` that errors; the `none` result models
the `unwrap` panic, which aborts before any event is written. -/
def XmlEventWriter.write_characters_display (w : XmlEventWriter)
    (displayed : Option String) : Option (XmlEventWriter × Option WriterError) :=
  match displayed with
  | none => none
  | some s => some (w.write_characters s)

/-- Sequencing of two fallible writer steps, modelling `?` propagation. -/
def wseq (res : XmlEventWriter × Option WriterError)
    (f : XmlEventWriter → XmlEventWriter × Option WriterError) :
    XmlEventWriter × Option WriterError :=
  match res with
  | (w, some e) => (w, some e)
  | (w, none) => f w

/-- `XmlEventWriter::write_tag_characters`: start element, characters,
end element, with `?` propagation. -/
def XmlEventWriter.write_tag_characters (w : XmlEventWriter) (tag : String)
    (value : String) : XmlEventWriter × Option WriterError :=
  wseq (w.write (XmlWriteEvent.startElement tag [])) fun w1 =>
    wseq (w1.write_characters value) fun w2 =>
      w2.write XmlWriteEvent.endElement

/-- The loop body of `XmlEventWriter::write_tag_array` over the zipped
value/tag pairs (the source indexes `tags[index]` under the length
assertion, which is the same pairing). -/
def XmlEventWriter.write_tag_array_loop (w : XmlEventWriter) :
    List (String × String) → XmlEventWriter × Option WriterError
  | [] => (w, none)
  | (value, tag) :: rest =>
    match w.write_tag_characters tag value with
    | (w1, some e) => (w1, some e)
    | (w1, none) => w1.write_tag_array_loop rest

/-- `XmlEventWriter::write_tag_array`: `assert_eq!(values.len(), tags.len())`
then the write loop. The assertion failure (a Rust panic) is modelled by the
`none` result, produced before anything is written. -/
def XmlEventWriter.write_tag_array (w : XmlEventWriter) (values : List String)
    (tags : List String) : Option (XmlEventWriter × Option WriterError) :=
  if values.length = tags.length then
    some (w.write_tag_array_loop (values.zip tags))
  else
    none

/-! ## Decimal and hexadecimal text helpers

Used by the spec-modelled type handlers below for their numeric and binary
textual forms. -/

/-- Decimal digit character for a value below ten. -/
def digitChar (d : Nat) : Char := Char.ofNat (48 + d)

/-- Value of a decimal digit character. -/
def digitVal (c : Char) : Option Nat :=
  if 48 ≤ c.toNat ∧ c.toNat ≤ 57 then some (c.toNat - 48) else none

/-- Big-endian decimal digits of a natural number. -/
def natDigits (n : Nat) : List Char :=
  if _h : n < 10 then [digitChar n]
  else natDigits (n / 10) ++ [digitChar (n % 10)]
decreasing_by exact Nat.div_lt_self (by omega) (by omega)

/-- Fold step for parsing decimal digit lists. -/
def parseDigitStep (acc : Option Nat) (c : Char) : Option Nat :=
  match acc, digitVal c with
  | some a, some d => some (a * 10 + d)
  | _, _ => none

/-- Parse a nonempty list of decimal digit characters. -/
def parseNatChars (l : List Char) : Option Nat :=
  match l with
  | [] => none
  | _ => l.foldl parseDigitStep (some 0)

/-- Human-readable decimal representation of an integer (the standard
`Display` form: optional minus sign followed by decimal digits). -/
def intRepr (n : Int) : String := ⟨if n < 0 then '-' :: natDigits n.natAbs else natDigits n.natAbs⟩

/-- Parse the decimal representation of an integer. -/
def parseIntChars (l : List Char) : Option Int :=
  match l with
  | [] => none
  | c :: rest =>
    if c = '-' then (parseNatChars rest).map fun m => -(m : Int)
    else (parseNatChars (c :: rest)).map fun m => (m : Int)

/-- Lower-case hexadecimal digit character for a value below sixteen. -/
def hexDigitChar (d : Nat) : Char :=
  if d < 10 then Char.ofNat (48 + d) else Char.ofNat (87 + d)

/-- Value of a lower-case hexadecimal digit character. -/
def hexDigitVal (c : Char) : Option Nat :=
  if 48 ≤ c.toNat ∧ c.toNat ≤ 57 then some (c.toNat - 48)
  else if 97 ≤ c.toNat ∧ c.toNat ≤ 102 then some (c.toNat - 87)
  else none

/-- Hexadecimal text of a byte sequence, two digits per byte. -/
def hexEncodeChars (bytes : List Nat) : List Char :=
  bytes.flatMap fun b => [hexDigitChar (b / 16), hexDigitChar (b % 16)]

/-- Decode hexadecimal text back into bytes; fails on odd length or
non-hex characters. -/
def hexDecodeChars : List Char → Option (List Nat)
  | [] => some []
  | [_] => none
  | c1 :: c2 :: rest =>
    match hexDigitVal c1, hexDigitVal c2, hexDecodeChars rest with
    | some h, some l, some bs => some ((h * 16 + l) :: bs)
    | _, _, _ => none

/-! ## Deserialization side and the typed error surface

The files `error.rs` and `deserializer_core.rs` of rbx_xml are not part of
the visible source; the definitions in the `rbxerr` namespace and the
`XmlEventReader` below are modelled from the spec (sections 4.2, 6 and 7). -/

namespace rbxerr

/-- Modelled from the spec: `DecodeError` kinds from section 7 — an external
tag with no registered handler (`UnknownPropertyType`, the spec's
"unknown value type"), a handler's own parsing failure (`InvalidContent`,
the spec's "malformed value"), and an unexpected token in the underlying
stream. `error.rs` is not under src/. -/
inductive DecodeErrorKind where
  | UnknownPropertyType (name : String)
  | InvalidContent (details : String)
  | UnexpectedToken
deriving DecidableEq, Repr

/-- Modelled from the spec: a decode failure carries its kind together with
the stream position for diagnostics (section 7: "a stream position, so
failures are locatable in the source document"). -/
structure DecodeError where
  kind : DecodeErrorKind
  pos : Nat
deriving DecidableEq, Repr

/-- Modelled from the spec: `EncodeError` kinds from section 7 — an
in-memory value kind with no registered handler (`UnsupportedPropertyType`,
the spec's "unsupported value type") and the underlying stream failure
wrapped verbatim. `error.rs` is not under src/. -/
inductive EncodeErrorKind where
  | UnsupportedPropertyType (typeName : String)
  | Xml (e : WriterError)
deriving DecidableEq, Repr

/-- Modelled from the spec: an encode failure carrying its kind. -/
structure EncodeErrorS where
  kind : EncodeErrorKind
deriving DecidableEq, Repr

end rbxerr

/-- Modelled from the spec: the leading/trailing-whitespace normalization
that the underlying format applies to plain (non-literal-block) character
data — section 4.1: the literal-block strategy exists so that the format
"does not apply leading/trailing-whitespace normalization". -/
def normalizeOuter (s : String) : String :=
  ⟨((s.data.dropWhile isUnicodeWhitespace).reverse.dropWhile
    isUnicodeWhitespace).reverse⟩

/-- Modelled from the spec: `deserializer_core.rs` is not under src/. The
decoder stream capability of section 6 over the event list produced by the
writer, with `pos` the position for error reporting (events consumed so
far). -/
structure XmlEventReader where
  events : List XmlWriteEvent
  pos : Nat
deriving DecidableEq, Repr

/-- Modelled from the spec: attach the reader's current position to an error
kind (the `reader.error(...)` calls in types/mod.rs; section 7 requires the
stream position on decode failures). -/
def XmlEventReader.error (r : XmlEventReader) (kind : rbxerr.DecodeErrorKind) :
    rbxerr.DecodeError :=
  ⟨kind, r.pos⟩

/-- Modelled from the spec: consume an element-start event with the given
name (section 6 decoder capability). -/
def XmlEventReader.expect_start (r : XmlEventReader) (tag : String) :
    Except rbxerr.DecodeError XmlEventReader :=
  match r.events with
  | XmlWriteEvent.startElement n _ :: rest =>
    if n = tag then Except.ok ⟨rest, r.pos + 1⟩
    else Except.error (r.error rbxerr.DecodeErrorKind.UnexpectedToken)
  | _ => Except.error (r.error rbxerr.DecodeErrorKind.UnexpectedToken)

/-- Modelled from the spec: consume an element-end event (section 6
`expect_end_element`). -/
def XmlEventReader.expect_end (r : XmlEventReader) :
    Except rbxerr.DecodeError XmlEventReader :=
  match r.events with
  | XmlWriteEvent.endElement :: rest => Except.ok ⟨rest, r.pos + 1⟩
  | _ => Except.error (r.error rbxerr.DecodeErrorKind.UnexpectedToken)

/-- Modelled from the spec: read the inner text of an element (section 6
`read_inner_text`). Plain character data is subject to the format's
outer-whitespace normalization; a literal CDATA block is returned
verbatim. -/
def XmlEventReader.read_text (r : XmlEventReader) :
    Except rbxerr.DecodeError (String × XmlEventReader) :=
  match r.events with
  | XmlWriteEvent.characters s :: rest => Except.ok (normalizeOuter s, ⟨rest, r.pos + 1⟩)
  | XmlWriteEvent.cdata s :: rest => Except.ok (s, ⟨rest, r.pos + 1⟩)
  | _ => Except.error (r.error rbxerr.DecodeErrorKind.UnexpectedToken)

/-! ## The value union and the registered type handlers

`rbx_dom_weak::types` and the handler submodules (`binary_string.rs`,
`bool.rs`, `cframe.rs`, `strings.rs`) are not under src/; they are modelled
from the spec. Per section 8, a property is an element tagged with the
property name containing a child element tagged with the kind's tag name
whose text is the value's textual form. Each handler's `read_xml` consumes
its own child element, matching the dispatcher's contract that decode is
invoked with the stream positioned at the value's content. -/

/-- Modelled from the spec: an instance referent (opaque id; `Ref` of
rbx_dom_weak is not under src/). -/
structure Ref where
  id : Nat
deriving DecidableEq, Repr

/-- Modelled from the spec: a 3D transform with a position and a 3x3
rotation matrix, "a transform serialized as a sequence of named numeric
fields" (section 4.1). The numeric field type is not fixed by the spec and
is modelled as `Int` so the textual form is exact. `cframe.rs` and the
`CFrame` type of rbx_dom_weak are not under src/. -/
structure CFrame where
  x : Int
  y : Int
  z : Int
  r00 : Int
  r01 : Int
  r02 : Int
  r10 : Int
  r11 : Int
  r12 : Int
  r20 : Int
  r21 : Int
  r22 : Int
deriving DecidableEq, Repr

/-- The twelve components of a transform in serialization order. -/
def CFrame.components (c : CFrame) : List Int :=
  [c.x, c.y, c.z, c.r00, c.r01, c.r02, c.r10, c.r11, c.r12, c.r20, c.r21, c.r22]

/-- Modelled from the spec: the closed tagged union of value kinds
(`Variant` of rbx_dom_weak, not under src/): the four kinds registered in
types/mod.rs plus representative kinds that the visible registration list
leaves out (`Ref`, `SharedString`, `BrickColor` appear in the commented-out
arms; `Int32` stands for the other deliberately absent kinds). A
`BinaryString` is an opaque byte sequence, each byte below 256. -/
inductive Variant where
  | BinaryString (bytes : List Nat)
  | Bool (b : Bool)
  | CFrame (cf : CFrame)
  | String (s : String)
  | Ref (r : Ref)
  | SharedString (s : String)
  | BrickColor (n : Nat)
  | Int32 (n : Int)
deriving DecidableEq, Repr

/-- Name of a value kind, as a plain string. -/
abbrev KindName := String

/-- Modelled from the spec: `Variant::ty`, the name of the value's kind
(carried by the unsupported-value-type error). -/
def Variant.ty : Variant → KindName
  | Variant.BinaryString _ => "BinaryString"
  | Variant.Bool _ => "Bool"
  | Variant.CFrame _ => "CFrame"
  | Variant.String _ => "String"
  | Variant.Ref _ => "Ref"
  | Variant.SharedString _ => "SharedString"
  | Variant.BrickColor _ => "BrickColor"
  | Variant.Int32 _ => "Int32"

/-- Modelled from the spec: opaque emit-side context threaded through calls
(section 3 `EncodeState`; `serializer.rs` is not under src/). -/
inductive EmitState where
  | mk
deriving DecidableEq, Repr

/-- Modelled from the spec: opaque parse-side context threaded through calls
(section 3 `DecodeState`; `deserializer.rs` is not under src/). -/
inductive ParseState where
  | mk
deriving DecidableEq, Repr

/-- Modelled from the spec: tag name of the text-string handler
(`strings.rs` is not under src/). -/
def StringType.XML_TAG_NAME : String := "string"

/-- Modelled from the spec: the text-string handler's encode function —
open the property element, open the tag element, write the string through
`write_string` (the character-data encoder's outer-whitespace decision),
close both. -/
def StringType.write_xml (w : XmlEventWriter) (prop : String) (v : String) :
    XmlEventWriter × Option WriterError :=
  wseq (w.write (XmlWriteEvent.startElement prop [])) fun w1 =>
    wseq (w1.write (XmlWriteEvent.startElement StringType.XML_TAG_NAME [])) fun w2 =>
      wseq (w2.write_string v) fun w3 =>
        wseq (w3.write XmlWriteEvent.endElement) fun w4 =>
          w4.write XmlWriteEvent.endElement

/-- Modelled from the spec: the text-string handler's decode function —
consume the tag element and return its inner text. -/
def StringType.read_xml (r : XmlEventReader) :
    Except rbxerr.DecodeError (String × XmlEventReader) := do
  let r1 ← r.expect_start StringType.XML_TAG_NAME
  let (s, r2) ← r1.read_text
  let r3 ← r2.expect_end
  pure (s, r3)

/-- Modelled from the spec: tag name of the boolean handler (section 8 names
the tag `bool`; `bool.rs` is not under src/). -/
def BoolType.XML_TAG_NAME : String := "bool"

/-- Display form of a Rust `bool`. -/
def boolDisplay (b : Bool) : String := if b then "true" else "false"

/-- Modelled from the spec: the boolean handler's encode function — open the
property element, write the tagged textual form (`true`/`false`, section 8)
through `write_tag_characters`, close. -/
def BoolType.write_xml (w : XmlEventWriter) (prop : String) (v : Bool) :
    XmlEventWriter × Option WriterError :=
  wseq (w.write (XmlWriteEvent.startElement prop [])) fun w1 =>
    wseq (w1.write_tag_characters BoolType.XML_TAG_NAME (boolDisplay v)) fun w2 =>
      w2.write XmlWriteEvent.endElement

/-- Modelled from the spec: the boolean handler's decode function — consume
the tag element and parse `true` or `false`, anything else being a
malformed value. -/
def BoolType.read_xml (r : XmlEventReader) :
    Except rbxerr.DecodeError (Bool × XmlEventReader) := do
  let r1 ← r.expect_start BoolType.XML_TAG_NAME
  let (s, r2) ← r1.read_text
  let r3 ← r2.expect_end
  if s = "true" then pure (true, r3)
  else if s = "false" then pure (false, r3)
  else Except.error (r2.error (rbxerr.DecodeErrorKind.InvalidContent s))

/-- Modelled from the spec: tag name of the binary-blob handler
(`binary_string.rs` is not under src/). -/
def BinaryStringType.XML_TAG_NAME : String := "BinaryString"

/-- Modelled from the spec: the binary-blob handler's encode function. The
spec leaves the textual form of the opaque blob open; it is modelled as two
lower-case hexadecimal digits per byte, written through `write_string`. -/
def BinaryStringType.write_xml (w : XmlEventWriter) (prop : String)
    (v : List Nat) : XmlEventWriter × Option WriterError :=
  wseq (w.write (XmlWriteEvent.startElement prop [])) fun w1 =>
    wseq (w1.write (XmlWriteEvent.startElement BinaryStringType.XML_TAG_NAME [])) fun w2 =>
      wseq (w2.write_string ⟨hexEncodeChars v⟩) fun w3 =>
        wseq (w3.write XmlWriteEvent.endElement) fun w4 =>
          w4.write XmlWriteEvent.endElement

/-- Modelled from the spec: the binary-blob handler's decode function —
consume the tag element and decode the hexadecimal text, non-hex content
being a malformed value. -/
def BinaryStringType.read_xml (r : XmlEventReader) :
    Except rbxerr.DecodeError (List Nat × XmlEventReader) := do
  let r1 ← r.expect_start BinaryStringType.XML_TAG_NAME
  let (s, r2) ← r1.read_text
  let r3 ← r2.expect_end
  match hexDecodeChars s.data with
  | some bytes => pure (bytes, r3)
  | none => Except.error (r2.error (rbxerr.DecodeErrorKind.InvalidContent s))

/-- Modelled from the spec: tag name of the transform handler (`cframe.rs`
is not under src/). -/
def CFrameType.XML_TAG_NAME : String := "CoordinateFrame"

/-- Names of the transform's twelve serialized numeric fields. -/
def cframeComponentTags : List String :=
  ["X", "Y", "Z", "R00", "R01", "R02", "R10", "R11", "R12", "R20", "R21", "R22"]

/-- Modelled from the spec: the transform handler's encode function — open
the property element, open the tag element, write the twelve named numeric
fields through `write_tag_array` (section 4.1: "a transform serialized as a
sequence of named numeric fields"), close both. The `write_tag_array`
length assertion cannot fire here: both lists have twelve entries. -/
def CFrameType.write_xml (w : XmlEventWriter) (prop : String) (v : CFrame) :
    XmlEventWriter × Option WriterError :=
  wseq (w.write (XmlWriteEvent.startElement prop [])) fun w1 =>
    wseq (w1.write (XmlWriteEvent.startElement CFrameType.XML_TAG_NAME [])) fun w2 =>
      match w2.write_tag_array (v.components.map intRepr) cframeComponentTags with
      | some res =>
        wseq res fun w3 =>
          wseq (w3.write XmlWriteEvent.endElement) fun w4 =>
            w4.write XmlWriteEvent.endElement
      | none => (w2, some (WriterError.Other "tag array length mismatch"))

/-- Modelled from the spec: read one named numeric field. -/
def read_tag_int (tag : String) (r : XmlEventReader) :
    Except rbxerr.DecodeError (Int × XmlEventReader) := do
  let r1 ← r.expect_start tag
  let (s, r2) ← r1.read_text
  let r3 ← r2.expect_end
  match parseIntChars s.data with
  | some n => pure (n, r3)
  | none => Except.error (r2.error (rbxerr.DecodeErrorKind.InvalidContent s))

/-- Modelled from the spec: read a sequence of named numeric fields. -/
def read_tag_ints : List String → XmlEventReader →
    Except rbxerr.DecodeError (List Int × XmlEventReader)
  | [], r => pure ([], r)
  | t :: ts, r => do
    let (n, r1) ← read_tag_int t r
    let (ns, r2) ← read_tag_ints ts r1
    pure (n :: ns, r2)

/-- Modelled from the spec: the transform handler's decode function —
consume the tag element, read the twelve named numeric fields, and rebuild
the transform. -/
def CFrameType.read_xml (r : XmlEventReader) :
    Except rbxerr.DecodeError (CFrame × XmlEventReader) := do
  let r1 ← r.expect_start CFrameType.XML_TAG_NAME
  let (ns, r2) ← read_tag_ints cframeComponentTags r1
  let r3 ← r2.expect_end
  match ns with
  | [x, y, z, a, b, c, d, e, f, g, h, i] =>
    pure (⟨x, y, z, a, b, c, d, e, f, g, h, i⟩, r3)
  | _ => Except.error (r2.error (rbxerr.DecodeErrorKind.InvalidContent "CFrame"))

/-! ## The type dispatch registry (types/mod.rs)

`read_value_xml` and `write_value_xml` are the expansion of the
`declare_rbx_types!` invocation over the shared type list
`BinaryString, Bool, CFrame, String`: the read side matches the incoming
tag name against each registered handler's tag, the write side matches on
the variant, and each side ends in the catch-all arm of the source. -/

/-- Wrap a handler's underlying-writer error into the typed encode error
(the spec's `UnderlyingStreamError`, wrapped verbatim). -/
def wrapWriterResult (res : XmlEventWriter × Option WriterError) :
    XmlEventWriter × Option rbxerr.EncodeErrorS :=
  (res.1, res.2.map fun e => ⟨rbxerr.EncodeErrorKind.Xml e⟩)

/-- `read_value_xml` from types/mod.rs: match the tag name against each
registered handler's `XML_TAG_NAME`; on no match, fail with
`UnknownPropertyType` carrying the tag name and the reader's position. -/
def read_value_xml (reader : XmlEventReader) (state : ParseState)
    (xml_type_name : String) (instance_id : Ref) (property_name : String) :
    Except rbxerr.DecodeError (Variant × XmlEventReader) :=
  if xml_type_name = BinaryStringType.XML_TAG_NAME then
    (BinaryStringType.read_xml reader).map fun p => (Variant.BinaryString p.1, p.2)
  else if xml_type_name = BoolType.XML_TAG_NAME then
    (BoolType.read_xml reader).map fun p => (Variant.Bool p.1, p.2)
  else if xml_type_name = CFrameType.XML_TAG_NAME then
    (CFrameType.read_xml reader).map fun p => (Variant.CFrame p.1, p.2)
  else if xml_type_name = StringType.XML_TAG_NAME then
    (StringType.read_xml reader).map fun p => (Variant.String p.1, p.2)
  else
    Except.error (reader.error (rbxerr.DecodeErrorKind.UnknownPropertyType xml_type_name))

/-- `write_value_xml` from types/mod.rs: match on the variant, dispatching
registered kinds to their handler's `write_xml`; the catch-all arm fails
with `UnsupportedPropertyType` carrying the kind's name, writing nothing. -/
def write_value_xml (writer : XmlEventWriter) (state : EmitState)
    (xml_property_name : String) (value : Variant) :
    XmlEventWriter × Option rbxerr.EncodeErrorS :=
  match value with
  | Variant.BinaryString v => wrapWriterResult (BinaryStringType.write_xml writer xml_property_name v)
  | Variant.Bool v => wrapWriterResult (BoolType.write_xml writer xml_property_name v)
  | Variant.CFrame v => wrapWriterResult (CFrameType.write_xml writer xml_property_name v)
  | Variant.String v => wrapWriterResult (StringType.write_xml writer xml_property_name v)
  | unknown => (writer, some ⟨rbxerr.EncodeErrorKind.UnsupportedPropertyType unknown.ty⟩)

/-- The tag registered for a value's kind in the shared type list of
`declare_rbx_types!`, `none` for a kind with no registered handler. -/
def variantTag : Variant → Option String
  | Variant.BinaryString _ => some BinaryStringType.XML_TAG_NAME
  | Variant.Bool _ => some BoolType.XML_TAG_NAME
  | Variant.CFrame _ => some CFrameType.XML_TAG_NAME
  | Variant.String _ => some StringType.XML_TAG_NAME
  | _ => none

/-- Validity of a value: binary blobs hold bytes (below 256); every other
kind's values are all valid. -/
def validVariant : Variant → Prop
  | Variant.BinaryString bytes => ∀ b ∈ bytes, b < 256
  | _ => True

/-- Whether the first character (Unicode scalar) of a string is whitespace. -/
def firstCharWs (s : String) : Bool :=
  (s.data.head?.map isUnicodeWhitespace).getD false

/-- Whether the last character (Unicode scalar) of a string is whitespace. -/
def lastCharWs (s : String) : Bool :=
  (s.data.getLast?.map isUnicodeWhitespace).getD false

/-- The event sequence `write_tag_array` produces for index-paired values
and tags: for each pair, a start element, the chosen character event, and
an end element. -/
def taggedEvents (values tags : List String) : List XmlWriteEvent :=
  (values.zip tags).flatMap fun vt =>
    [XmlWriteEvent.startElement vt.2 [], charEvent vt.1, XmlWriteEvent.endElement]

/-! ## Lemmas about the writer in its no-underlying-failure mode -/

theorem string_empty_append (s : String) : "" ++ s = s := rfl

theorem xw_write_nil (w : XmlEventWriter) (hp : w.inner.errorPlan = [])
    (ev : XmlWriteEvent) :
    w.write ev = (⟨⟨w.inner.events ++ [ev], []⟩, w.character_buffer⟩, none) := by
  obtain ⟨⟨evs, plan⟩, buf⟩ := w
  simp only at hp
  subst hp
  rfl

theorem wcoc_eq_charEvent (ew : EventWriter) (v : String) :
    write_characters_or_cdata ew v = ew.write (charEvent v) := by
  unfold write_characters_or_cdata charEvent
  cases h : has_outer_whitespace v <;> simp [h]

theorem ew_wcoc_nil (ew : EventWriter) (hp : ew.errorPlan = []) (v : String) :
    write_characters_or_cdata ew v = (⟨ew.events ++ [charEvent v], []⟩, none) := by
  rw [wcoc_eq_charEvent]
  obtain ⟨evs, plan⟩ := ew
  simp only at hp
  subst hp
  rfl

theorem xw_write_string_nil (w : XmlEventWriter) (hp : w.inner.errorPlan = [])
    (v : String) :
    w.write_string v =
      (⟨⟨w.inner.events ++ [charEvent v], []⟩, w.character_buffer⟩, none) := by
  simp only [XmlEventWriter.write_string, ew_wcoc_nil w.inner hp]

theorem xw_write_characters_nil (w : XmlEventWriter)
    (hp : w.inner.errorPlan = []) (v : String) :
    w.write_characters v =
      (⟨⟨w.inner.events ++ [charEvent (w.character_buffer ++ v)], []⟩, ""⟩, none) := by
  simp only [XmlEventWriter.write_characters, ew_wcoc_nil w.inner hp]

theorem xw_write_tag_characters_nil (w : XmlEventWriter)
    (hp : w.inner.errorPlan = []) (tag v : String) :
    w.write_tag_characters tag v =
      (⟨⟨w.inner.events ++
          [XmlWriteEvent.startElement tag [], charEvent (w.character_buffer ++ v),
            XmlWriteEvent.endElement], []⟩, ""⟩, none) := by
  simp only [XmlEventWriter.write_tag_characters, xw_write_nil w hp, wseq]
  rw [xw_write_characters_nil ⟨⟨w.inner.events ++ [XmlWriteEvent.startElement tag []], []⟩,
    w.character_buffer⟩ rfl v]
  simp only [wseq]
  rw [xw_write_nil _ rfl]
  simp [List.append_assoc]

theorem write_tag_array_loop_nil (pairs : List (String × String)) :
    ∀ w : XmlEventWriter, w.inner.errorPlan = [] → w.character_buffer = "" →
      w.write_tag_array_loop pairs =
        (⟨⟨w.inner.events ++ pairs.flatMap (fun vt =>
            [XmlWriteEvent.startElement vt.2 [], charEvent vt.1,
              XmlWriteEvent.endElement]), []⟩, ""⟩, none) := by
  induction pairs with
  | nil =>
    intro w hp hb
    obtain ⟨⟨evs, plan⟩, buf⟩ := w
    simp only at hp hb
    subst hp; subst hb
    simp [XmlEventWriter.write_tag_array_loop]
  | cons vt rest ih =>
    intro w hp hb
    obtain ⟨v, t⟩ := vt
    simp only [XmlEventWriter.write_tag_array_loop]
    rw [xw_write_tag_characters_nil w hp t v, hb, string_empty_append]
    dsimp only
    rw [ih ⟨⟨w.inner.events ++ [XmlWriteEvent.startElement t [], charEvent v,
      XmlWriteEvent.endElement], []⟩, ""⟩ rfl rfl]
    simp [List.append_assoc]

/-! ## Whitespace boundary lemmas -/

theorem dropWhile_eq_self_of_head (p : Char → Bool) (l : List Char) (c : Char)
    (hh : l.head? = some c) (hc : p c = false) : l.dropWhile p = l := by
  cases l with
  | nil => cases hh
  | cons a rest =>
    simp only [List.head?_cons, Option.some.injEq] at hh
    subst hh
    simp [List.dropWhile_cons, hc]

theorem getLast?_of_cons (c : Char) (rest : List Char) :
    ∃ a, (c :: rest).getLast? = some a := by
  cases hgl : (c :: rest).getLast? with
  | some a => exact ⟨a, rfl⟩
  | none => exact absurd (List.getLast?_eq_none_iff.mp hgl) (by simp)

theorem has_outer_whitespace_cons (c : Char) (rest : List Char) (a : Char)
    (hgl : (c :: rest).getLast? = some a) :
    has_outer_whitespace ⟨c :: rest⟩ =
      (isUnicodeWhitespace c || isUnicodeWhitespace a) := by
  unfold has_outer_whitespace
  simp only [String.data]
  rw [List.head?_cons, hgl]

theorem normalizeOuter_eq_self (s : String) (h : has_outer_whitespace s = false) :
    normalizeOuter s = s := by
  obtain ⟨l⟩ := s
  cases l with
  | nil => rfl
  | cons c rest =>
    obtain ⟨a, hgl⟩ := getLast?_of_cons c rest
    rw [has_outer_whitespace_cons c rest a hgl] at h
    simp only [Bool.or_eq_false_iff] at h
    unfold normalizeOuter
    simp only [String.data]
    rw [dropWhile_eq_self_of_head _ _ c (List.head?_cons) h.1]
    rw [dropWhile_eq_self_of_head _ _ a (by rw [List.head?_reverse]; exact hgl) h.2]
    rw [List.reverse_reverse]

/-! ## Claim C1 -/

/-- C1: `write_string` and the shared helper `write_characters_or_cdata`
choose the CDATA (literal-block) strategy exactly when the string is
non-empty and its first or last character is whitespace; the empty string
and strings with non-whitespace boundaries get the plain characters
strategy; and the decision is a function of the two boundary characters
alone, independent of interior content, length, or writer state. -/
theorem write_string_outer_whitespace_decision (value : String) :
    (has_outer_whitespace value =
      (!value.data.isEmpty && (firstCharWs value || lastCharWs value))) ∧
    (has_outer_whitespace value = true →
      charEvent value = XmlWriteEvent.cdata value) ∧
    (has_outer_whitespace value = false →
      charEvent value = XmlWriteEvent.characters value) ∧
    (∀ ew : EventWriter, write_characters_or_cdata ew value = ew.write (charEvent value)) ∧
    (∀ w : XmlEventWriter, w.write_string value = w.write (charEvent value)) ∧
    (∀ t : String, value.data.head? = t.data.head? →
      value.data.getLast? = t.data.getLast? →
      has_outer_whitespace value = has_outer_whitespace t) := by
  refine ⟨?_, ?_, ?_, ?_, ?_, ?_⟩
  · obtain ⟨l⟩ := value
    cases l with
    | nil => rfl
    | cons c rest =>
      obtain ⟨a, hgl⟩ := getLast?_of_cons c rest
      rw [has_outer_whitespace_cons c rest a hgl]
      simp only [firstCharWs, lastCharWs, String.data, List.head?_cons, hgl,
        Option.map_some', Option.getD_some, List.isEmpty_cons, Bool.not_false,
        Bool.true_and]
  · intro h; simp [charEvent, h]
  · intro h; simp [charEvent, h]
  · intro ew; exact wcoc_eq_charEvent ew value
  · intro w
    simp only [XmlEventWriter.write_string, XmlEventWriter.write,
      wcoc_eq_charEvent]
  · intro t h1 h2
    unfold has_outer_whitespace
    rw [h1, h2]

/-- Witness for C1 at concrete inputs: a string with outer whitespace is
written as CDATA. -/
theorem write_string_outer_whitespace_decision_witness :
    charEvent " a " = XmlWriteEvent.cdata " a " :=
  (write_string_outer_whitespace_decision " a ").2.1 (by decide)

/-! ## Claim C2 (corrected) -/

/-- C2 counterexample: a call to `write_characters` that hits an error from
the underlying XML writer returns with the shared `character_buffer` still
holding the formatted content — the `?` on `write_characters_or_cdata`
returns before the `clear()`. With an underlying writer scripted to fail
once, the buffer after the failed call is `"5"`, not empty. -/
theorem write_characters_error_path_keeps_buffer :
    (XmlEventWriter.write_characters
        ⟨⟨[], [some (WriterError.Other "io failure")]⟩, ""⟩ "5").2 =
      some (WriterError.Other "io failure") ∧
    (XmlEventWriter.write_characters
        ⟨⟨[], [some (WriterError.Other "io failure")]⟩, ""⟩ "5").1.character_buffer ≠ "" := by
  constructor
  · decide
  · decide

/-- C2 amended: after every call to `write_characters` that returns
successfully the shared `character_buffer` is empty; a call that returns an
error from the underlying XML writer leaves the buffer holding the
previously buffered content plus the formatted value, which is prepended to
the output of a subsequent call. -/
theorem write_characters_buffer_cleared_on_success (w : XmlEventWriter)
    (value : String) :
    ((w.write_characters value).2 = none →
      (w.write_characters value).1.character_buffer = "") ∧
    (∀ e, (w.write_characters value).2 = some e →
      (w.write_characters value).1.character_buffer = w.character_buffer ++ value) := by
  obtain ⟨⟨evs, plan⟩, buf⟩ := w
  simp only [XmlEventWriter.write_characters]
  cases h : (write_characters_or_cdata ⟨evs, plan⟩ (buf ++ value)).2 <;> simp [h]

/-- Witness for C2's amended theorem: on a fresh writer the call succeeds
and the buffer is empty afterwards. -/
theorem write_characters_buffer_cleared_on_success_witness :
    (XmlEventWriter.write_characters XmlEventWriter.from_output "5").1.character_buffer = "" :=
  (write_characters_buffer_cleared_on_success XmlEventWriter.from_output "5").1 (by decide)

/-! ## Claim C7 -/

/-- C7: `write_tag_array` with values and tags of unequal length fails as a
programmer-error contract violation (the modelled `assert_eq!` outcome,
`none`) before writing anything; with equal lengths and a healthy
underlying writer it appends exactly one tagged element per pair, pairing
`values[i]` with `tags[i]` in index order. -/
theorem write_tag_array_length_contract (w : XmlEventWriter)
    (values tags : List String) :
    (values.length ≠ tags.length → w.write_tag_array values tags = none) ∧
    (values.length = tags.length → w.inner.errorPlan = [] →
      w.character_buffer = "" →
      w.write_tag_array values tags =
        some (⟨⟨w.inner.events ++ taggedEvents values tags, []⟩, ""⟩, none)) := by
  constructor
  · intro h
    simp [XmlEventWriter.write_tag_array, h]
  · intro h hp hb
    simp only [XmlEventWriter.write_tag_array, if_pos h]
    rw [write_tag_array_loop_nil (values.zip tags) w hp hb]
    rfl

/-- Witness for C7: three values against two tags fail the arity contract;
two against two write exactly the two tagged elements in order. -/
theorem write_tag_array_length_contract_witness :
    XmlEventWriter.write_tag_array XmlEventWriter.from_output ["1", "2", "3"] ["X", "Y"] = none ∧
    XmlEventWriter.write_tag_array XmlEventWriter.from_output ["1", "2"] ["X", "Y"] =
      some (⟨⟨XmlEventWriter.from_output.inner.events ++ taggedEvents ["1", "2"] ["X", "Y"], []⟩,
        ""⟩, none) := by
  constructor
  · exact (write_tag_array_length_contract XmlEventWriter.from_output
      ["1", "2", "3"] ["X", "Y"]).1 (by decide)
  · exact (write_tag_array_length_contract XmlEventWriter.from_output
      ["1", "2"] ["X", "Y"]).2 rfl rfl rfl

/-! ## Claim C8 -/

/-- C8: the `From` conversion maps an underlying I/O error to
`EncodeError::IoError` carrying the same error, and every other writer
error to `EncodeError::XmlError` carrying the original error unchanged; and
the encoder operations introduce no failure of their own — any error they
return is one scripted for the underlying writer. -/
theorem encode_error_wraps_writer_error :
    (∀ inner : IoError,
      EncodeError.fromWriterError (WriterError.Io inner) = EncodeError.IoError inner) ∧
    (∀ e : WriterError, (∀ inner, e ≠ WriterError.Io inner) →
      EncodeError.fromWriterError e = EncodeError.XmlError e) ∧
    (∀ (w : XmlEventWriter) (v : String) (e : WriterError),
      (w.write_string v).2 = some e → some e ∈ w.inner.errorPlan) ∧
    (∀ (w : XmlEventWriter) (v : String) (e : WriterError),
      (w.write_characters v).2 = some e → some e ∈ w.inner.errorPlan) := by
  refine ⟨fun inner => rfl, ?_, ?_, ?_⟩
  · intro e h
    cases e with
    | Io inner => exact absurd rfl (h inner)
    | Other d => rfl
  · intro w v e h
    simp only [XmlEventWriter.write_string, wcoc_eq_charEvent,
      XmlEventWriter.write] at h
    cases hp : w.inner.errorPlan with
    | nil => rw [EventWriter.write, hp] at h; cases h
    | cons o rest =>
      cases o with
      | none => rw [EventWriter.write, hp] at h; cases h
      | some x =>
        rw [EventWriter.write, hp] at h
        simp only [Option.some.injEq] at h
        rw [h]
        exact List.mem_cons_self _ _
  · intro w v e h
    simp only [XmlEventWriter.write_characters, wcoc_eq_charEvent] at h
    cases hp : w.inner.errorPlan with
    | nil =>
      rw [EventWriter.write, hp] at h; cases h
    | cons o rest =>
      cases o with
      | none => rw [EventWriter.write, hp] at h; cases h
      | some x =>
        rw [EventWriter.write, hp] at h
        simp only [Option.some.injEq] at h
        rw [h]
        exact List.mem_cons_self _ _

/-- Witness for C8: a non-I/O writer error is wrapped as `XmlError`
carrying the original error. -/
theorem encode_error_wraps_writer_error_witness :
    EncodeError.fromWriterError (WriterError.Other "emitter") =
      EncodeError.XmlError (WriterError.Other "emitter") :=
  encode_error_wraps_writer_error.2.1 (WriterError.Other "emitter")
    (fun _ h => WriterError.noConfusion h)

/-! ## Claim C10 -/

/-- C10: `write_characters` formats through an unconditional `unwrap`: when
the value's `Display` implementation reports a formatting error the call
panics (the `none` outcome) instead of returning an `EncodeError`; whenever
the `Display` output exists the call returns the ordinary `Result` of
`write_characters`, and the panic outcome is impossible. -/
theorem write_characters_display_unwrap (w : XmlEventWriter) :
    (w.write_characters_display none = none) ∧
    (∀ s : String, w.write_characters_display (some s) = some (w.write_characters s)) ∧
    (∀ (d : Option String) (res : XmlEventWriter × Option WriterError),
      w.write_characters_display d = some res →
      ∃ s, d = some s ∧ res = w.write_characters s) := by
  refine ⟨rfl, fun s => rfl, ?_⟩
  intro d res h
  cases d with
  | none => cases h
  | some s =>
    refine ⟨s, rfl, ?_⟩
    simp only [XmlEventWriter.write_characters_display, Option.some.injEq] at h
    exact h.symm

/-- Witness for C10: a successful `Display` output goes through the normal
buffered write. -/
theorem write_characters_display_unwrap_witness :
    ∃ s, (some "7" : Option String) = some s ∧
      XmlEventWriter.write_characters XmlEventWriter.from_output "7" =
        XmlEventWriter.from_output.write_characters s :=
  (write_characters_display_unwrap XmlEventWriter.from_output).2.2 (some "7")
    (XmlEventWriter.from_output.write_characters "7") rfl

/-! ## Decimal and hexadecimal round-trip lemmas -/

theorem digitVal_digitChar : ∀ d < 10, digitVal (digitChar d) = some d := by decide

theorem digitChar_not_ws : ∀ d < 10, isUnicodeWhitespace (digitChar d) = false := by decide

theorem digitChar_ne_dash : ∀ d < 10, digitChar d ≠ '-' := by decide

theorem hexDigitVal_hexDigitChar : ∀ d < 16, hexDigitVal (hexDigitChar d) = some d := by decide

theorem hexDigitChar_not_ws : ∀ d < 16, isUnicodeWhitespace (hexDigitChar d) = false := by decide

theorem natDigits_ne_nil (n : Nat) : natDigits n ≠ [] := by
  unfold natDigits
  split <;> simp

theorem natDigits_mem_digit (n : Nat) :
    ∀ c ∈ natDigits n, ∃ d, d < 10 ∧ c = digitChar d := by
  induction n using Nat.strong_induction_on with
  | _ n ih =>
    intro c hc
    unfold natDigits at hc
    split at hc
    · next h =>
      simp only [List.mem_singleton] at hc
      exact ⟨n, h, hc⟩
    · next h =>
      rcases List.mem_append.mp hc with hmem | hmem
      · exact ih (n / 10) (Nat.div_lt_self (by omega) (by omega)) c hmem
      · simp only [List.mem_singleton] at hmem
        exact ⟨n % 10, by omega, hmem⟩

theorem foldl_parseDigitStep_natDigits (n : Nat) :
    ∀ a : Nat, (natDigits n).foldl parseDigitStep (some a) =
      some (a * 10 ^ (natDigits n).length + n) := by
  induction n using Nat.strong_induction_on with
  | _ n ih =>
    intro a
    by_cases h : n < 10
    · unfold natDigits
      rw [dif_pos h]
      simp only [List.foldl_cons, List.foldl_nil, parseDigitStep,
        digitVal_digitChar n h, List.length_cons, List.length_nil]
      norm_num
    · unfold natDigits
      rw [dif_neg h]
      rw [List.foldl_append, ih (n / 10) (Nat.div_lt_self (by omega) (by omega)) a]
      simp only [List.foldl_cons, List.foldl_nil, parseDigitStep,
        digitVal_digitChar (n % 10) (by omega), List.length_append,
        List.length_cons, List.length_nil]
      have hdm : n / 10 * 10 + n % 10 = n := by omega
      generalize (natDigits (n / 10)).length = k
      congr 1
      calc (a * 10 ^ k + n / 10) * 10 + n % 10
          = a * (10 ^ k * 10) + (n / 10 * 10 + n % 10) := by ring
        _ = a * 10 ^ (k + 1) + n := by rw [hdm, pow_succ]

theorem parseNatChars_natDigits (n : Nat) : parseNatChars (natDigits n) = some n := by
  have h := foldl_parseDigitStep_natDigits n 0
  cases hd : natDigits n with
  | nil => exact absurd hd (natDigits_ne_nil n)
  | cons c rest =>
    rw [hd] at h
    unfold parseNatChars
    simpa using h

theorem natDigits_head_not_dash (n : Nat) (c : Char) (rest : List Char)
    (hd : natDigits n = c :: rest) : ¬c = '-' := by
  have hmem : c ∈ natDigits n := by rw [hd]; exact List.mem_cons_self _ _
  obtain ⟨d, hdlt, hcd⟩ := natDigits_mem_digit n c hmem
  rw [hcd]
  exact digitChar_ne_dash d hdlt

theorem parseIntChars_intRepr (n : Int) : parseIntChars (intRepr n).data = some n := by
  unfold intRepr
  by_cases h : n < 0
  · rw [if_pos h]
    show parseIntChars ('-' :: natDigits n.natAbs) = some n
    simp [parseIntChars, parseNatChars_natDigits,
      Int.ofNat_natAbs_of_nonpos (le_of_lt h)]
  · rw [if_neg h]
    cases hd : natDigits n.natAbs with
    | nil => exact absurd hd (natDigits_ne_nil _)
    | cons c rest =>
      show parseIntChars (c :: rest) = some n
      simp only [parseIntChars, if_neg (natDigits_head_not_dash n.natAbs c rest hd)]
      rw [← hd, parseNatChars_natDigits]
      simp [Int.natAbs_of_nonneg (by omega : (0 : Int) ≤ n)]

theorem has_outer_false_of_all (l : List Char)
    (h : ∀ c ∈ l, isUnicodeWhitespace c = false) :
    has_outer_whitespace ⟨l⟩ = false := by
  cases l with
  | nil => rfl
  | cons c rest =>
    obtain ⟨a, hgl⟩ := getLast?_of_cons c rest
    rw [has_outer_whitespace_cons c rest a hgl]
    rw [h c (List.mem_cons_self _ _), h a (List.mem_of_mem_getLast? hgl)]
    rfl

theorem intRepr_no_outer_ws (n : Int) : has_outer_whitespace (intRepr n) = false := by
  unfold intRepr
  apply has_outer_false_of_all
  intro c hc
  by_cases h : n < 0
  · rw [if_pos h] at hc
    rcases List.mem_cons.mp hc with rfl | hmem
    · decide
    · obtain ⟨d, hdlt, hcd⟩ := natDigits_mem_digit _ c hmem
      rw [hcd]; exact digitChar_not_ws d hdlt
  · rw [if_neg h] at hc
    obtain ⟨d, hdlt, hcd⟩ := natDigits_mem_digit _ c hc
    rw [hcd]; exact digitChar_not_ws d hdlt

theorem normalizeOuter_intRepr (n : Int) : normalizeOuter (intRepr n) = intRepr n :=
  normalizeOuter_eq_self _ (intRepr_no_outer_ws n)

theorem charEvent_intRepr (n : Int) :
    charEvent (intRepr n) = XmlWriteEvent.characters (intRepr n) := by
  simp [charEvent, intRepr_no_outer_ws n]

theorem hexDecode_hexEncode (bytes : List Nat) (h : ∀ b ∈ bytes, b < 256) :
    hexDecodeChars (hexEncodeChars bytes) = some bytes := by
  induction bytes with
  | nil => rfl
  | cons b rest ih =>
    have hb : b < 256 := h b (List.mem_cons_self _ _)
    have h16a : b / 16 < 16 := by omega
    have h16b : b % 16 < 16 := by omega
    show hexDecodeChars (hexDigitChar (b / 16) :: hexDigitChar (b % 16) ::
      hexEncodeChars rest) = some (b :: rest)
    rw [hexDecodeChars]
    rw [hexDigitVal_hexDigitChar _ h16a, hexDigitVal_hexDigitChar _ h16b,
      ih (fun x hx => h x (List.mem_cons_of_mem b hx))]
    have hsum : b / 16 * 16 + b % 16 = b := by omega
    dsimp only
    rw [hsum]

theorem hexEncode_no_outer_ws (bytes : List Nat) (h : ∀ b ∈ bytes, b < 256) :
    has_outer_whitespace ⟨hexEncodeChars bytes⟩ = false := by
  apply has_outer_false_of_all
  intro c hc
  simp only [hexEncodeChars, List.mem_flatMap] at hc
  obtain ⟨b, hb, hcb⟩ := hc
  have hblt : b < 256 := h b hb
  rcases List.mem_cons.mp hcb with rfl | hcb2
  · exact hexDigitChar_not_ws (b / 16) (by omega)
  · rcases List.mem_cons.mp hcb2 with rfl | hcb3
    · exact hexDigitChar_not_ws (b % 16) (by omega)
    · cases hcb3

theorem boolDisplay_no_outer_ws (b : Bool) :
    has_outer_whitespace (boolDisplay b) = false := by
  cases b <;> decide

theorem charEvent_boolDisplay (b : Bool) :
    charEvent (boolDisplay b) = XmlWriteEvent.characters (boolDisplay b) := by
  simp [charEvent, boolDisplay_no_outer_ws b]

theorem normalizeOuter_boolDisplay (b : Bool) :
    normalizeOuter (boolDisplay b) = boolDisplay b :=
  normalizeOuter_eq_self _ (boolDisplay_no_outer_ws b)

/-! ## Event shapes produced by the handlers on a fresh writer -/

theorem stringType_write_from_output (prop s : String) :
    StringType.write_xml XmlEventWriter.from_output prop s =
      (⟨⟨[XmlWriteEvent.startElement prop [],
          XmlWriteEvent.startElement StringType.XML_TAG_NAME [],
          charEvent s, XmlWriteEvent.endElement, XmlWriteEvent.endElement], []⟩,
        ""⟩, none) := by
  simp [StringType.write_xml, wseq, xw_write_nil, xw_write_string_nil,
    XmlEventWriter.from_output]

theorem boolType_write_from_output (prop : String) (b : Bool) :
    BoolType.write_xml XmlEventWriter.from_output prop b =
      (⟨⟨[XmlWriteEvent.startElement prop [],
          XmlWriteEvent.startElement BoolType.XML_TAG_NAME [],
          charEvent (boolDisplay b), XmlWriteEvent.endElement,
          XmlWriteEvent.endElement], []⟩, ""⟩, none) := by
  simp [BoolType.write_xml, wseq, xw_write_nil, xw_write_tag_characters_nil,
    XmlEventWriter.from_output, string_empty_append]

theorem binaryStringType_write_from_output (prop : String) (bytes : List Nat) :
    BinaryStringType.write_xml XmlEventWriter.from_output prop bytes =
      (⟨⟨[XmlWriteEvent.startElement prop [],
          XmlWriteEvent.startElement BinaryStringType.XML_TAG_NAME [],
          charEvent ⟨hexEncodeChars bytes⟩, XmlWriteEvent.endElement,
          XmlWriteEvent.endElement], []⟩, ""⟩, none) := by
  simp [BinaryStringType.write_xml, wseq, xw_write_nil, xw_write_string_nil,
    XmlEventWriter.from_output]

theorem cframeType_write_from_output (prop : String) (v : CFrame) :
    CFrameType.write_xml XmlEventWriter.from_output prop v =
      (⟨⟨XmlWriteEvent.startElement prop [] ::
          XmlWriteEvent.startElement CFrameType.XML_TAG_NAME [] ::
          (((v.components.map intRepr).zip cframeComponentTags).flatMap fun vt =>
            [XmlWriteEvent.startElement vt.2 [], charEvent vt.1,
              XmlWriteEvent.endElement]) ++
          [XmlWriteEvent.endElement, XmlWriteEvent.endElement], []⟩, ""⟩, none) := by
  simp only [CFrameType.write_xml, XmlEventWriter.from_output]
  rw [xw_write_nil ⟨⟨[], []⟩, ""⟩ rfl]
  simp only [wseq]
  rw [xw_write_nil ⟨⟨[] ++ [XmlWriteEvent.startElement prop []], []⟩, ""⟩ rfl]
  simp only [wseq]
  have hlen : (v.components.map intRepr).length = cframeComponentTags.length := by
    simp [CFrame.components, cframeComponentTags]
  simp only [XmlEventWriter.write_tag_array, if_pos hlen]
  rw [write_tag_array_loop_nil _ _ rfl rfl]
  simp only [wseq]
  rw [xw_write_nil _ rfl]
  simp only [wseq]
  rw [xw_write_nil _ rfl]
  simp [List.append_assoc]

/-! ## Reader round-trip lemmas over written event shapes -/

theorem read_text_charEvent (s : String) (hws : has_outer_whitespace s = false)
    (rest : List XmlWriteEvent) (p : Nat) :
    XmlEventReader.read_text ⟨charEvent s :: rest, p⟩ =
      Except.ok (s, ⟨rest, p + 1⟩) := by
  have hce : charEvent s = XmlWriteEvent.characters s := by simp [charEvent, hws]
  rw [hce]
  simp [XmlEventReader.read_text, normalizeOuter_eq_self s hws]

theorem read_text_charEvent_cdata (s : String)
    (hws : has_outer_whitespace s = true) (rest : List XmlWriteEvent) (p : Nat) :
    XmlEventReader.read_text ⟨charEvent s :: rest, p⟩ =
      Except.ok (s, ⟨rest, p + 1⟩) := by
  have hce : charEvent s = XmlWriteEvent.cdata s := by simp [charEvent, hws]
  rw [hce]
  simp [XmlEventReader.read_text]

theorem read_text_charEvent_any (s : String) (rest : List XmlWriteEvent) (p : Nat) :
    XmlEventReader.read_text ⟨charEvent s :: rest, p⟩ =
      Except.ok (s, ⟨rest, p + 1⟩) := by
  cases hws : has_outer_whitespace s
  · exact read_text_charEvent s hws rest p
  · exact read_text_charEvent_cdata s hws rest p

theorem stringType_read_block (s : String) (rest : List XmlWriteEvent) (p : Nat) :
    StringType.read_xml ⟨XmlWriteEvent.startElement StringType.XML_TAG_NAME [] ::
        charEvent s :: XmlWriteEvent.endElement :: rest, p⟩ =
      Except.ok (s, ⟨rest, p + 3⟩) := by
  simp only [StringType.read_xml, XmlEventReader.expect_start, if_pos rfl, if_true,
    Bind.bind, Except.bind]
  rw [read_text_charEvent_any s (XmlWriteEvent.endElement :: rest) (p + 1)]
  simp [XmlEventReader.expect_end, pure, Except.pure]

theorem boolType_read_block (b : Bool) (rest : List XmlWriteEvent) (p : Nat) :
    BoolType.read_xml ⟨XmlWriteEvent.startElement BoolType.XML_TAG_NAME [] ::
        charEvent (boolDisplay b) :: XmlWriteEvent.endElement :: rest, p⟩ =
      Except.ok (b, ⟨rest, p + 3⟩) := by
  simp only [BoolType.read_xml, XmlEventReader.expect_start, if_pos rfl, if_true,
    Bind.bind, Except.bind]
  rw [read_text_charEvent_any (boolDisplay b) (XmlWriteEvent.endElement :: rest) (p + 1)]
  cases b <;>
    simp [XmlEventReader.expect_end, boolDisplay, pure, Except.pure]

theorem binaryStringType_read_block (bytes : List Nat)
    (h : ∀ b ∈ bytes, b < 256) (rest : List XmlWriteEvent) (p : Nat) :
    BinaryStringType.read_xml
        ⟨XmlWriteEvent.startElement BinaryStringType.XML_TAG_NAME [] ::
          charEvent ⟨hexEncodeChars bytes⟩ :: XmlWriteEvent.endElement :: rest, p⟩ =
      Except.ok (bytes, ⟨rest, p + 3⟩) := by
  simp only [BinaryStringType.read_xml, XmlEventReader.expect_start, if_pos rfl, if_true,
    Bind.bind, Except.bind]
  rw [read_text_charEvent_any ⟨hexEncodeChars bytes⟩
    (XmlWriteEvent.endElement :: rest) (p + 1)]
  simp only [XmlEventReader.expect_end, Bind.bind, Except.bind]
  have hdata : (⟨hexEncodeChars bytes⟩ : String).data = hexEncodeChars bytes := rfl
  simp [hdata, hexDecode_hexEncode bytes h, pure, Except.pure]

theorem read_tag_int_block (t : String) (c : Int) (rest : List XmlWriteEvent)
    (p : Nat) :
    read_tag_int t ⟨XmlWriteEvent.startElement t [] :: charEvent (intRepr c) ::
        XmlWriteEvent.endElement :: rest, p⟩ =
      Except.ok (c, ⟨rest, p + 3⟩) := by
  simp only [read_tag_int, XmlEventReader.expect_start, if_pos rfl, if_true,
    Bind.bind, Except.bind]
  rw [read_text_charEvent_any (intRepr c) (XmlWriteEvent.endElement :: rest) (p + 1)]
  simp [XmlEventReader.expect_end, parseIntChars_intRepr c, pure, Except.pure]

theorem read_tag_ints_blocks :
    ∀ (comps : List Int) (tags : List String), comps.length = tags.length →
    ∀ (rest : List XmlWriteEvent) (p : Nat),
      read_tag_ints tags ⟨(((comps.map intRepr).zip tags).flatMap fun vt =>
          [XmlWriteEvent.startElement vt.2 [], charEvent vt.1,
            XmlWriteEvent.endElement]) ++ rest, p⟩ =
        Except.ok (comps, ⟨rest, p + 3 * tags.length⟩) := by
  intro comps
  induction comps with
  | nil =>
    intro tags hlen rest p
    cases tags with
    | nil => simp [read_tag_ints, pure, Except.pure]
    | cons t ts => cases hlen
  | cons c cs ih =>
    intro tags hlen rest p
    cases tags with
    | nil => cases hlen
    | cons t ts =>
      simp only [List.map_cons, List.zip_cons_cons, List.flatMap_cons,
        List.append_assoc, List.cons_append, List.nil_append]
      simp only [read_tag_ints, Bind.bind, Except.bind]
      rw [read_tag_int_block t c _ p]
      dsimp only
      rw [ih ts (by simpa using hlen) rest (p + 3)]
      dsimp only [pure, Except.pure]
      have harith : p + 3 + 3 * ts.length = p + 3 * (t :: ts).length := by
        simp only [List.length_cons]
        ring
      rw [harith]

theorem cframeType_read_block (v : CFrame) (rest : List XmlWriteEvent) (p : Nat) :
    CFrameType.read_xml ⟨XmlWriteEvent.startElement CFrameType.XML_TAG_NAME [] ::
        ((((v.components.map intRepr).zip cframeComponentTags).flatMap fun vt =>
          [XmlWriteEvent.startElement vt.2 [], charEvent vt.1,
            XmlWriteEvent.endElement]) ++ (XmlWriteEvent.endElement :: rest)), p⟩ =
      Except.ok (v, ⟨rest, p + 38⟩) := by
  simp only [CFrameType.read_xml, XmlEventReader.expect_start, if_pos rfl, if_true,
    Bind.bind, Except.bind]
  rw [read_tag_ints_blocks v.components cframeComponentTags
    (by simp [CFrame.components, cframeComponentTags])
    (XmlWriteEvent.endElement :: rest) (p + 1)]
  dsimp only [CFrame.components, cframeComponentTags]
  simp only [XmlEventReader.expect_end, List.length_cons, List.length_nil]
  dsimp only [pure, Except.pure]

/-! ## Claim C3 -/

/-- C3: for every registered value kind and every valid value of that kind,
writing through `write_value_xml` on a fresh writer and reading the
produced stream back through `read_value_xml` under the kind's tag (the
reader positioned past the outer property-element start, at the value's
content) yields exactly the original value — in particular string values
keep their leading, trailing, and interior whitespace exactly. The handler
implementations and the decoder are modelled from the spec; the
outer-whitespace decision and the dispatch are the source's. -/
theorem registered_value_roundtrip (v : Variant) (t : String)
    (hreg : variantTag v = some t) (hvalid : validVariant v)
    (estate : EmitState) (pstate : ParseState) (prop : String) (iid : Ref)
    (pname : String) :
    ∃ w' : XmlEventWriter,
      write_value_xml XmlEventWriter.from_output estate prop v = (w', none) ∧
      ∃ r' : XmlEventReader,
        read_value_xml ⟨w'.inner.events.drop 1, 0⟩ pstate t iid pname =
          Except.ok (v, r') := by
  cases v with
  | BinaryString bytes =>
    simp only [variantTag, Option.some.injEq] at hreg
    subst hreg
    refine ⟨⟨⟨[XmlWriteEvent.startElement prop [],
      XmlWriteEvent.startElement BinaryStringType.XML_TAG_NAME [],
      charEvent ⟨hexEncodeChars bytes⟩, XmlWriteEvent.endElement,
      XmlWriteEvent.endElement], []⟩, ""⟩, ?_, ?_⟩
    · simp only [write_value_xml]
      rw [binaryStringType_write_from_output]
      rfl
    · refine ⟨⟨[XmlWriteEvent.endElement], 3⟩, ?_⟩
      show read_value_xml ⟨XmlWriteEvent.startElement BinaryStringType.XML_TAG_NAME [] ::
        charEvent ⟨hexEncodeChars bytes⟩ :: XmlWriteEvent.endElement ::
        [XmlWriteEvent.endElement], 0⟩ pstate BinaryStringType.XML_TAG_NAME iid pname = _
      rw [read_value_xml, if_pos rfl]
      rw [binaryStringType_read_block bytes hvalid [XmlWriteEvent.endElement] 0]
      rfl
  | Bool b =>
    simp only [variantTag, Option.some.injEq] at hreg
    subst hreg
    refine ⟨⟨⟨[XmlWriteEvent.startElement prop [],
      XmlWriteEvent.startElement BoolType.XML_TAG_NAME [],
      charEvent (boolDisplay b), XmlWriteEvent.endElement,
      XmlWriteEvent.endElement], []⟩, ""⟩, ?_, ?_⟩
    · simp only [write_value_xml]
      rw [boolType_write_from_output]
      rfl
    · refine ⟨⟨[XmlWriteEvent.endElement], 3⟩, ?_⟩
      show read_value_xml ⟨XmlWriteEvent.startElement BoolType.XML_TAG_NAME [] ::
        charEvent (boolDisplay b) :: XmlWriteEvent.endElement ::
        [XmlWriteEvent.endElement], 0⟩ pstate BoolType.XML_TAG_NAME iid pname = _
      rw [read_value_xml, if_neg (by decide), if_pos rfl]
      rw [boolType_read_block b [XmlWriteEvent.endElement] 0]
      rfl
  | CFrame cf =>
    simp only [variantTag, Option.some.injEq] at hreg
    subst hreg
    refine ⟨⟨⟨XmlWriteEvent.startElement prop [] ::
      XmlWriteEvent.startElement CFrameType.XML_TAG_NAME [] ::
      (((cf.components.map intRepr).zip cframeComponentTags).flatMap fun vt =>
        [XmlWriteEvent.startElement vt.2 [], charEvent vt.1,
          XmlWriteEvent.endElement]) ++
      [XmlWriteEvent.endElement, XmlWriteEvent.endElement], []⟩, ""⟩, ?_, ?_⟩
    · simp only [write_value_xml]
      rw [cframeType_write_from_output]
      rfl
    · refine ⟨⟨[XmlWriteEvent.endElement], 38⟩, ?_⟩
      show read_value_xml ⟨XmlWriteEvent.startElement CFrameType.XML_TAG_NAME [] ::
        ((((cf.components.map intRepr).zip cframeComponentTags).flatMap fun vt =>
          [XmlWriteEvent.startElement vt.2 [], charEvent vt.1,
            XmlWriteEvent.endElement]) ++
        [XmlWriteEvent.endElement, XmlWriteEvent.endElement]), 0⟩ pstate
        CFrameType.XML_TAG_NAME iid pname = _
      rw [read_value_xml, if_neg (by decide), if_neg (by decide), if_pos rfl]
      have hshape : ((((cf.components.map intRepr).zip cframeComponentTags).flatMap fun vt =>
          [XmlWriteEvent.startElement vt.2 [], charEvent vt.1,
            XmlWriteEvent.endElement]) ++
          [XmlWriteEvent.endElement, XmlWriteEvent.endElement] :
            List XmlWriteEvent) =
          (((cf.components.map intRepr).zip cframeComponentTags).flatMap fun vt =>
            [XmlWriteEvent.startElement vt.2 [], charEvent vt.1,
              XmlWriteEvent.endElement]) ++
          (XmlWriteEvent.endElement :: [XmlWriteEvent.endElement]) := rfl
      rw [hshape, cframeType_read_block cf [XmlWriteEvent.endElement] 0]
      rfl
  | String s =>
    simp only [variantTag, Option.some.injEq] at hreg
    subst hreg
    refine ⟨⟨⟨[XmlWriteEvent.startElement prop [],
      XmlWriteEvent.startElement StringType.XML_TAG_NAME [],
      charEvent s, XmlWriteEvent.endElement, XmlWriteEvent.endElement], []⟩,
      ""⟩, ?_, ?_⟩
    · simp only [write_value_xml]
      rw [stringType_write_from_output]
      rfl
    · refine ⟨⟨[XmlWriteEvent.endElement], 3⟩, ?_⟩
      show read_value_xml ⟨XmlWriteEvent.startElement StringType.XML_TAG_NAME [] ::
        charEvent s :: XmlWriteEvent.endElement ::
        [XmlWriteEvent.endElement], 0⟩ pstate StringType.XML_TAG_NAME iid pname = _
      rw [read_value_xml, if_neg (by decide), if_neg (by decide),
        if_neg (by decide), if_pos rfl]
      rw [stringType_read_block s [XmlWriteEvent.endElement] 0]
      rfl
  | Ref r => cases hreg
  | SharedString s => cases hreg
  | BrickColor n => cases hreg
  | Int32 n => cases hreg

/-- Witness for C3: the string `" a "`, with leading and trailing
whitespace, survives the write/read round trip exactly. -/
theorem registered_value_roundtrip_witness :
    ∃ w' : XmlEventWriter,
      write_value_xml XmlEventWriter.from_output EmitState.mk "Value"
          (Variant.String " a ") = (w', none) ∧
      ∃ r' : XmlEventReader,
        read_value_xml ⟨w'.inner.events.drop 1, 0⟩ ParseState.mk "string"
            ⟨0⟩ "Value" = Except.ok (Variant.String " a ", r') :=
  registered_value_roundtrip (Variant.String " a ") "string" rfl trivial
    EmitState.mk ParseState.mk "Value" ⟨0⟩ "Value"

/-! ## Claim C4 -/

/-- C4: for every tag name outside the registered handlers' tags,
`read_value_xml` returns (rather than panics) a decode error of kind
unknown-value-type carrying the offending tag verbatim together with the
reader's current position; no value is produced, and the result is
independent of the stream's content — no handler's decode function runs. -/
theorem read_value_xml_unknown_tag (tag : String)
    (h1 : tag ≠ BinaryStringType.XML_TAG_NAME)
    (h2 : tag ≠ BoolType.XML_TAG_NAME)
    (h3 : tag ≠ CFrameType.XML_TAG_NAME)
    (h4 : tag ≠ StringType.XML_TAG_NAME) :
    (∀ (r : XmlEventReader) (st : ParseState) (iid : Ref) (pn : String),
      read_value_xml r st tag iid pn =
        Except.error ⟨rbxerr.DecodeErrorKind.UnknownPropertyType tag, r.pos⟩) ∧
    (∀ (ev1 ev2 : List XmlWriteEvent) (p : Nat) (st st' : ParseState)
        (iid iid' : Ref) (pn pn' : String),
      read_value_xml ⟨ev1, p⟩ st tag iid pn =
        read_value_xml ⟨ev2, p⟩ st' tag iid' pn') := by
  have hmain : ∀ (r : XmlEventReader) (st : ParseState) (iid : Ref) (pn : String),
      read_value_xml r st tag iid pn =
        Except.error ⟨rbxerr.DecodeErrorKind.UnknownPropertyType tag, r.pos⟩ := by
    intro r st iid pn
    rw [read_value_xml, if_neg h1, if_neg h2, if_neg h3, if_neg h4]
    rfl
  refine ⟨hmain, ?_⟩
  intro ev1 ev2 p st st' iid iid' pn pn'
  rw [hmain ⟨ev1, p⟩ st iid pn, hmain ⟨ev2, p⟩ st' iid' pn']

/-- Witness for C4: the tag `NotARealType` fails with the unknown-value-type
error carrying the tag and the position, on a concrete reader. -/
theorem read_value_xml_unknown_tag_witness :
    read_value_xml ⟨[XmlWriteEvent.endElement], 7⟩ ParseState.mk "NotARealType"
        ⟨0⟩ "Prop" =
      Except.error ⟨rbxerr.DecodeErrorKind.UnknownPropertyType "NotARealType", 7⟩ :=
  (read_value_xml_unknown_tag "NotARealType" (by decide) (by decide) (by decide)
    (by decide)).1 ⟨[XmlWriteEvent.endElement], 7⟩ ParseState.mk ⟨0⟩ "Prop"

/-! ## Claim C5 -/

/-- C5: for every value whose kind has no registered encode handler,
`write_value_xml` returns the unsupported-value-type encode error carrying
that kind's name, and the writer comes back unchanged — nothing is written
to the output stream. -/
theorem write_value_xml_unsupported (v : Variant) (hv : variantTag v = none)
    (w : XmlEventWriter) (st : EmitState) (name : String) :
    write_value_xml w st name v =
      (w, some ⟨rbxerr.EncodeErrorKind.UnsupportedPropertyType v.ty⟩) := by
  cases v with
  | BinaryString b => simp [variantTag] at hv
  | Bool b => simp [variantTag] at hv
  | CFrame c => simp [variantTag] at hv
  | String s => simp [variantTag] at hv
  | Ref r => rfl
  | SharedString s => rfl
  | BrickColor n => rfl
  | Int32 n => rfl

/-- Witness for C5: an `Int32` value — a kind absent from the registration
list — fails with `UnsupportedPropertyType "Int32"` and writes nothing. -/
theorem write_value_xml_unsupported_witness :
    write_value_xml XmlEventWriter.from_output EmitState.mk "Prop"
        (Variant.Int32 5) =
      (XmlEventWriter.from_output,
        some ⟨rbxerr.EncodeErrorKind.UnsupportedPropertyType "Int32"⟩) :=
  write_value_xml_unsupported (Variant.Int32 5) rfl XmlEventWriter.from_output
    EmitState.mk "Prop"

/-! ## Claim C6 -/

/-- C6: the decode tag set and the encode kind set come from the one shared
registration list and correspond one-to-one: for every registered kind the
inner element emitted by the write arm is tagged exactly with that kind's
registered tag, and any value successfully decoded under a tag has the kind
registered to that same tag. The four active kinds are all bidirectional;
no active kind is decode-only or encode-only. -/
theorem dispatch_tag_correspondence :
    (∀ (v : Variant) (t : String), variantTag v = some t →
      ∀ (estate : EmitState) (prop : String),
        ∃ w' : XmlEventWriter,
          write_value_xml XmlEventWriter.from_output estate prop v = (w', none) ∧
          w'.inner.events[1]? = some (XmlWriteEvent.startElement t [])) ∧
    (∀ (t : String) (r : XmlEventReader) (st : ParseState) (iid : Ref)
        (pn : String) (v : Variant) (r' : XmlEventReader),
      read_value_xml r st t iid pn = Except.ok (v, r') →
      variantTag v = some t) := by
  constructor
  · intro v t hreg estate prop
    cases v with
    | BinaryString bytes =>
      simp only [variantTag, Option.some.injEq] at hreg
      subst hreg
      refine ⟨⟨⟨[XmlWriteEvent.startElement prop [],
        XmlWriteEvent.startElement BinaryStringType.XML_TAG_NAME [],
        charEvent ⟨hexEncodeChars bytes⟩, XmlWriteEvent.endElement,
        XmlWriteEvent.endElement], []⟩, ""⟩, ?_, ?_⟩
      · simp only [write_value_xml]
        rw [binaryStringType_write_from_output]
        rfl
      · rfl
    | Bool b =>
      simp only [variantTag, Option.some.injEq] at hreg
      subst hreg
      refine ⟨⟨⟨[XmlWriteEvent.startElement prop [],
        XmlWriteEvent.startElement BoolType.XML_TAG_NAME [],
        charEvent (boolDisplay b), XmlWriteEvent.endElement,
        XmlWriteEvent.endElement], []⟩, ""⟩, ?_, ?_⟩
      · simp only [write_value_xml]
        rw [boolType_write_from_output]
        rfl
      · rfl
    | CFrame cf =>
      simp only [variantTag, Option.some.injEq] at hreg
      subst hreg
      refine ⟨⟨⟨XmlWriteEvent.startElement prop [] ::
        XmlWriteEvent.startElement CFrameType.XML_TAG_NAME [] ::
        (((cf.components.map intRepr).zip cframeComponentTags).flatMap fun vt =>
          [XmlWriteEvent.startElement vt.2 [], charEvent vt.1,
            XmlWriteEvent.endElement]) ++
        [XmlWriteEvent.endElement, XmlWriteEvent.endElement], []⟩, ""⟩, ?_, ?_⟩
      · simp only [write_value_xml]
        rw [cframeType_write_from_output]
        rfl
      · rfl
    | String s =>
      simp only [variantTag, Option.some.injEq] at hreg
      subst hreg
      refine ⟨⟨⟨[XmlWriteEvent.startElement prop [],
        XmlWriteEvent.startElement StringType.XML_TAG_NAME [],
        charEvent s, XmlWriteEvent.endElement, XmlWriteEvent.endElement], []⟩,
        ""⟩, ?_, ?_⟩
      · simp only [write_value_xml]
        rw [stringType_write_from_output]
        rfl
      · rfl
    | Ref r => cases hreg
    | SharedString s => cases hreg
    | BrickColor n => cases hreg
    | Int32 n => cases hreg
  · intro t r st iid pn v r' h
    by_cases h1 : t = BinaryStringType.XML_TAG_NAME
    · rw [read_value_xml, if_pos h1] at h
      cases hx : BinaryStringType.read_xml r with
      | error e => rw [hx] at h; cases h
      | ok p =>
        rw [hx] at h
        simp only [Except.map, Except.ok.injEq, Prod.mk.injEq] at h
        rw [← h.1]
        rw [h1]
        rfl
    · rw [read_value_xml, if_neg h1] at h
      by_cases h2 : t = BoolType.XML_TAG_NAME
      · rw [if_pos h2] at h
        cases hx : BoolType.read_xml r with
        | error e => rw [hx] at h; cases h
        | ok p =>
          rw [hx] at h
          simp only [Except.map, Except.ok.injEq, Prod.mk.injEq] at h
          rw [← h.1]
          rw [h2]
          rfl
      · rw [if_neg h2] at h
        by_cases h3 : t = CFrameType.XML_TAG_NAME
        · rw [if_pos h3] at h
          cases hx : CFrameType.read_xml r with
          | error e => rw [hx] at h; cases h
          | ok p =>
            rw [hx] at h
            simp only [Except.map, Except.ok.injEq, Prod.mk.injEq] at h
            rw [← h.1]
            rw [h3]
            rfl
        · rw [if_neg h3] at h
          by_cases h4 : t = StringType.XML_TAG_NAME
          · rw [if_pos h4] at h
            cases hx : StringType.read_xml r with
            | error e => rw [hx] at h; cases h
            | ok p =>
              rw [hx] at h
              simp only [Except.map, Except.ok.injEq, Prod.mk.injEq] at h
              rw [← h.1]
              rw [h4]
              rfl
          · rw [if_neg h4] at h
            cases h

/-- Witness for C6: for the boolean kind, the tag the write arm emits is
the tag the read arm matches. -/
theorem dispatch_tag_correspondence_witness :
    ∃ w' : XmlEventWriter,
      write_value_xml XmlEventWriter.from_output EmitState.mk "Visible"
          (Variant.Bool true) = (w', none) ∧
      w'.inner.events[1]? = some (XmlWriteEvent.startElement "bool" []) :=
  dispatch_tag_correspondence.1 (Variant.Bool true) "bool" rfl EmitState.mk
    "Visible"

/-! ## Claim C9 (corrected) -/

/-- C9 counterexample: the encode dispatch is not compile-time exhaustive
over the closed set of kinds — the match ends in a catch-all arm, and a
kind present in the value union with no dedicated arm (here `Ref`, one of
the kinds the registration list leaves out) flows into it at runtime,
producing an unsupported-value-type error instead of being rejected at
build time. -/
theorem write_value_xml_catch_all_counterexample :
    write_value_xml XmlEventWriter.from_output EmitState.mk "Value"
        (Variant.Ref ⟨1⟩) =
      (XmlEventWriter.from_output,
        some ⟨rbxerr.EncodeErrorKind.UnsupportedPropertyType "Ref"⟩) := rfl

/-- C9 amended: the value-to-tag dispatch of `write_value_xml` ends in a
catch-all arm, so a kind added to the value union without a dedicated match
arm is not detected at compile time; instead every such kind is routed at
runtime into an explicit unsupported-value-type error — a loud typed
failure, not a silent gap. -/
theorem write_value_xml_total_dispatch (v : Variant) (w : XmlEventWriter)
    (st : EmitState) (name : String) :
    (∃ t, variantTag v = some t) ∨
      write_value_xml w st name v =
        (w, some ⟨rbxerr.EncodeErrorKind.UnsupportedPropertyType v.ty⟩) := by
  cases v with
  | BinaryString b => exact Or.inl ⟨_, rfl⟩
  | Bool b => exact Or.inl ⟨_, rfl⟩
  | CFrame c => exact Or.inl ⟨_, rfl⟩
  | String s => exact Or.inl ⟨_, rfl⟩
  | Ref r => exact Or.inr rfl
  | SharedString s => exact Or.inr rfl
  | BrickColor n => exact Or.inr rfl
  | Int32 n => exact Or.inr rfl
